import Mathlib

/-!
Shallow embedding of the `parse` package of ziyasal/mimir (the documentation
schema extraction engine, `tools/doc-generator/parser.go` lineage) and of
`pkg/util/validation/aggregators.go`, together with theorems settling the
frozen claims about the natural-language specification.

Modelling conventions:
* Go's reflective view of a type is embedded as the inductive `GoType`.
  A defined (named) struct type is represented by `GoType.structT` carrying
  the printed type name (as `reflect.Type.String()` would render it) and its
  field list; `GoType.namedT` represents a defined type whose underlying
  type is not a struct (for example `time.Duration`, whose kind is `int64`).
* A field's storage address is represented by the list of field indices
  leading to it from the root configuration value: distinct storage
  locations have distinct index paths, which models Go's identity-based
  (address-based) flag correlation.
* Go heap identity of `*ConfigBlock` values is modelled by a fresh natural
  number allocated at each point the source executes a block allocation; two
  blocks are "the same instance" exactly when their allocation ids agree.
* Package-level inputs of the source that are declared outside this file
  (the `RootBlocks` registry, the `fieldcategory` override table, the set of
  types implementing `ExamplerConfig`, and the flag registry produced by
  `Flags`) are passed explicitly in an `Env` record.
-/

set_option autoImplicit false

namespace MimirParse

/-- Go `reflect.Kind` values relevant to the engine. -/
inductive GoKind where
  | kbool
  | kint | kint8 | kint16 | kint32 | kint64
  | kuint | kuint8 | kuint16 | kuint32 | kuint64
  | kfloat32 | kfloat64
  | kstring
  | kslice
  | kmap
  | kstruct
  | kptr
  | kfunc
  | kchan
deriving DecidableEq, Repr

/-- The `reflect.Kind.String()` rendering of the kinds above (used in error messages). -/
def kindName : GoKind → String
  | .kbool => "bool"
  | .kint => "int"
  | .kint8 => "int8"
  | .kint16 => "int16"
  | .kint32 => "int32"
  | .kint64 => "int64"
  | .kuint => "uint"
  | .kuint8 => "uint8"
  | .kuint16 => "uint16"
  | .kuint32 => "uint32"
  | .kuint64 => "uint64"
  | .kfloat32 => "float32"
  | .kfloat64 => "float64"
  | .kstring => "string"
  | .kslice => "slice"
  | .kmap => "map"
  | .kstruct => "struct"
  | .kptr => "ptr"
  | .kfunc => "func"
  | .kchan => "chan"

mutual

/-- Embedding of Go types as seen through `reflect`. `structT` carries the
printed name of the (named) struct type and its declared fields in order;
`namedT` is a defined type with a non-struct underlying type. -/
inductive GoType : Type where
  | boolT
  | intT | int8T | int16T | int32T | int64T
  | uintT | uint8T | uint16T | uint32T | uint64T
  | float32T | float64T
  | stringT
  | sliceT (elem : GoType)
  | mapT (key : GoType) (elem : GoType)
  | structT (name : String) (fields : GoFields)
  | ptrT (elem : GoType)
  | funcT
  | chanT
  | namedT (name : String) (underlying : GoType)

/-- The declared field list of a struct type (a bespoke list so that the
mutual induction with `GoType` stays first-class). -/
inductive GoFields : Type where
  | nil
  | cons (f : GoField) (rest : GoFields)

/-- Embedding of `reflect.StructField`: declared Go name, the `yaml`, `doc`
and `category` struct tags, and the field's type. -/
inductive GoField : Type where
  | mk (name : String) (yamlTag : String) (docTag : String)
      (categoryTag : String) (typ : GoType)

end

namespace GoField

def name : GoField → String
  | .mk n _ _ _ _ => n

def yamlTag : GoField → String
  | .mk _ y _ _ _ => y

def docTag : GoField → String
  | .mk _ _ d _ _ => d

def categoryTag : GoField → String
  | .mk _ _ _ c _ => c

def typ : GoField → GoType
  | .mk _ _ _ _ t => t

end GoField

/-- Embedding of `reflect.Type.Kind()`. -/
def goKind : GoType → GoKind
  | .boolT => .kbool
  | .intT => .kint
  | .int8T => .kint8
  | .int16T => .kint16
  | .int32T => .kint32
  | .int64T => .kint64
  | .uintT => .kuint
  | .uint8T => .kuint8
  | .uint16T => .kuint16
  | .uint32T => .kuint32
  | .uint64T => .kuint64
  | .float32T => .kfloat32
  | .float64T => .kfloat64
  | .stringT => .kstring
  | .sliceT _ => .kslice
  | .mapT _ _ => .kmap
  | .structT _ _ => .kstruct
  | .ptrT _ => .kptr
  | .funcT => .kfunc
  | .chanT => .kchan
  | .namedT _ u => goKind u

/-- Embedding of `reflect.Type.String()`. -/
def tyString : GoType → String
  | .boolT => "bool"
  | .intT => "int"
  | .int8T => "int8"
  | .int16T => "int16"
  | .int32T => "int32"
  | .int64T => "int64"
  | .uintT => "uint"
  | .uint8T => "uint8"
  | .uint16T => "uint16"
  | .uint32T => "uint32"
  | .uint64T => "uint64"
  | .float32T => "float32"
  | .float64T => "float64"
  | .stringT => "string"
  | .sliceT e => "[]" ++ tyString e
  | .mapT k v => "map[" ++ tyString k ++ "]" ++ tyString v
  | .structT n _ => n
  | .ptrT e => "*" ++ tyString e
  | .funcT => "func()"
  | .chanT => "chan"
  | .namedT n _ => n

/-- Embedding of `reflect.Type.Elem()` for slice/map/pointer kinds (named types defer to
their underlying type, as `reflect` does). -/
def goElem : GoType → GoType
  | .sliceT e => e
  | .mapT _ v => v
  | .ptrT e => e
  | .namedT _ u => goElem u
  | t => t

/-- Embedding of `reflect.Type.Key()` for map kinds. -/
def goKey : GoType → GoType
  | .mapT k _ => k
  | .namedT _ u => goKey u
  | t => t

mutual

/-- Go type identity (`==` on `reflect.Type`), structural on the embedding. -/
def GoType.beq : GoType → GoType → Bool
  | .boolT, .boolT => true
  | .intT, .intT => true
  | .int8T, .int8T => true
  | .int16T, .int16T => true
  | .int32T, .int32T => true
  | .int64T, .int64T => true
  | .uintT, .uintT => true
  | .uint8T, .uint8T => true
  | .uint16T, .uint16T => true
  | .uint32T, .uint32T => true
  | .uint64T, .uint64T => true
  | .float32T, .float32T => true
  | .float64T, .float64T => true
  | .stringT, .stringT => true
  | .sliceT a, .sliceT b => GoType.beq a b
  | .mapT k1 v1, .mapT k2 v2 => GoType.beq k1 k2 && GoType.beq v1 v2
  | .structT n1 f1, .structT n2 f2 => n1 == n2 && GoFields.beq f1 f2
  | .ptrT a, .ptrT b => GoType.beq a b
  | .funcT, .funcT => true
  | .chanT, .chanT => true
  | .namedT n1 u1, .namedT n2 u2 => n1 == n2 && GoType.beq u1 u2
  | _, _ => false

def GoFields.beq : GoFields → GoFields → Bool
  | .nil, .nil => true
  | .cons f1 r1, .cons f2 r2 => GoField.beq f1 f2 && GoFields.beq r1 r2
  | _, _ => false

def GoField.beq : GoField → GoField → Bool
  | .mk n1 y1 d1 c1 t1, .mk n2 y2 d2 c2 t2 =>
    n1 == n2 && y1 == y2 && d1 == d2 && c1 == c2 && GoType.beq t1 t2

end

/-- Does the character list start with the given pattern? (Go
`strings.HasPrefix` on the byte level, kept at character granularity since
every pattern the source uses is ASCII.) -/
def listStartsWith : List Char → List Char → Bool
  | _, [] => true
  | [], _ :: _ => false
  | c :: cs, p :: ps => c == p && listStartsWith cs ps

/-- Go `strings.Split(s, sep)` for a one-character separator (both
separators the source uses, the pipe and the equals sign, are one
character). -/
def splitOnChar (sep : Char) : List Char → List (List Char)
  | [] => [[]]
  | c :: cs =>
    let r := splitOnChar sep cs
    if c = sep then [] :: r
    else
      match r with
      | [] => [[c]]
      | x :: xs => (c :: x) :: xs

/-- ASCII lowercase conversion (Go `strings.ToLower` on the identifiers the
source feeds it). -/
def goToLower (s : String) : String :=
  ⟨s.data.map Char.toLower⟩

/-- Split at the first occurrence of the separator character, with the
semantics of Go `strings.SplitN(s, sep, 2)`: the second component is `none`
when the separator does not occur at all. -/
def splitFirst (sep : Char) : List Char → List Char × Option (List Char)
  | [] => ([], none)
  | c :: cs =>
    if c = sep then ([], some cs)
    else
      let r := splitFirst sep cs
      (c :: r.1, r.2)

/-- One `key` or `key=value` token of a `doc` struct tag, split as Go
`strings.SplitN(entry, "=", 2)` splits it. -/
def docTagEntry (entry : String) : String × String :=
  match splitFirst '=' entry.data with
  | (k, none) => (⟨k⟩, "")
  | (k, some v) => (⟨k⟩, ⟨v⟩)

/-- Embedding of `parseDocTag`: the `doc` struct tag parsed into the entry
sequence of the resulting Go map, in insertion order. Later entries
overwrite earlier ones on lookup, exactly as repeated Go map writes do. -/
def parseDocTag (f : GoField) : List (String × String) :=
  let tag := f.docTag
  if tag = "" then []
  else (splitOnChar '|' tag.data).map (fun cs => docTagEntry ⟨cs⟩)

/-- Lookup in the map built by `parseDocTag` (last write wins). -/
def docTagGet (f : GoField) (name : String) : Option String :=
  (parseDocTag f).foldl (fun acc kv => if kv.1 = name then some kv.2 else acc) none

/-- Embedding of `getDocTagFlag`: key presence in the parsed `doc` tag. -/
def getDocTagFlag (f : GoField) (name : String) : Bool :=
  (docTagGet f name).isSome

/-- Embedding of `getDocTagValue`: a Go map read returns the zero value
(the empty string) for an absent key. -/
def getDocTagValue (f : GoField) (name : String) : String :=
  (docTagGet f name).getD ""

def isFieldHidden (f : GoField) : Bool := getDocTagFlag f "hidden"

def isAbsentInCLI (f : GoField) : Bool := getDocTagFlag f "nocli"

def isFieldRequired (f : GoField) : Bool := getDocTagFlag f "required"

/-- Embedding of `isFieldInline`: the `yaml` tag matches the anchored
pattern consisting of a comma-free part, a comma and the word inline. -/
def isFieldInline (f : GoField) : Bool :=
  listStartsWith f.yamlTag.data.reverse ((",inline").data.reverse) &&
  !(f.yamlTag.data.reverse.drop 7).any (fun c => c = ',')

/-- Embedding of `getFieldName`. With no `yaml` tag, a Go field name is
never empty; for the (unreachable in Go) empty name this model yields the
empty string, which makes the field be skipped. The leading-byte lowercase
test matches Go's behaviour on the ASCII identifiers used in practice. -/
def getFieldName (f : GoField) : String :=
  let name := f.name
  let tag := f.yamlTag
  if tag = "" then
    match name.data with
    | [] => ""
    | c :: _ => if c.isLower then "" else goToLower name
  else
    let fieldName : String := ⟨tag.data.takeWhile (fun c => !(c == ','))⟩
    if fieldName = "-" then "" else fieldName

/-- Embedding of `getFieldDescription`. -/
def getFieldDescription (f : GoField) (fallback : String) : String :=
  let desc := getDocTagValue f "description"
  if desc ≠ "" then desc else fallback

/-- Embedding of `getFieldDefault`. -/
def getFieldDefault (f : GoField) (fallback : String) : String :=
  let v := getDocTagValue f "default"
  if v ≠ "" then v else fallback

/-! The special types whose identity or printed name the source compares
against. Where the field structure of a library type is irrelevant to the
engine (it is only compared by identity), the field list is left empty. -/

def urlURLPtrType : GoType := .ptrT (.structT "url.URL" .nil)

def timeDurationType : GoType := .namedT "time.Duration" .int64T

def stringSliceCSVType : GoType := .namedT "flagext.StringSliceCSV" (.sliceT .stringT)

def cidrSliceCSVType : GoType :=
  .namedT "flagext.CIDRSliceCSV" (.sliceT (.structT "flagext.CIDR" .nil))

def relabelConfigSliceType : GoType := .sliceT (.ptrT (.structT "relabel.Config" .nil))

def activeSeriesTrackersType : GoType :=
  .structT "ingester.ActiveSeriesCustomTrackersConfig" .nil

def loggingLevelType : GoType := .structT "logging.Level" .nil

def loggingFormatType : GoType := .structT "logging.Format" .nil

def flagextURLValueType : GoType := .structT "flagext.URLValue" .nil

def flagextSecretType : GoType := .structT "flagext.Secret" .nil

def modelDurationType : GoType := .namedT "model.Duration" .int64T

def flagextTimeType : GoType := .structT "flagext.Time" .nil

/-- The custom data type switch of `getFieldType`: the printed type name
compared against the six special types, yielding the fixed semantic name. -/
def overrideFieldType (t : GoType) : Option String :=
  if tyString t = tyString urlURLPtrType then some "url"
  else if tyString t = tyString timeDurationType then some "duration"
  else if tyString t = tyString stringSliceCSVType then some "string"
  else if tyString t = tyString cidrSliceCSVType then some "string"
  else if tyString t = tyString relabelConfigSliceType then some "relabel_config..."
  else if tyString t = tyString activeSeriesTrackersType then
    some "map of tracker name (string) to matcher (string)"
  else none

/-- The structural fallback of `getFieldType`, dispatching on
`reflect.Type.Kind()`; a named type has the kind, element and key of its
underlying type. The slice case recurses through the full classifier (the
override switch inlined, so that the recursion is structural). -/
def structuralFieldType : GoType → Except String String
  | .namedT _ u => structuralFieldType u
  | .boolT => .ok "boolean"
  | .intT | .int8T | .int16T | .int32T | .int64T
  | .uintT | .uint8T | .uint16T | .uint32T | .uint64T => .ok "int"
  | .float32T | .float64T => .ok "float"
  | .stringT => .ok "string"
  | .sliceT e =>
    match (match overrideFieldType e with
           | some s => Except.ok s
           | none => structuralFieldType e) with
    | .ok elemType => .ok ("list of " ++ elemType)
    | .error err => .error err
  | .mapT k v => .ok ("map of " ++ tyString k ++ " to " ++ tyString v)
  | t => .error ("unsupported data type " ++ kindName (goKind t))

/-- Embedding of `getFieldType`: the custom data type switch on the printed
type name, then the structural fallback on the type's kind. -/
def getFieldType (t : GoType) : Except String String :=
  match overrideFieldType t with
  | some s => Except.ok s
  | none => structuralFieldType t

/-- Embedding of `ReflectType`: the inverse mapping from a semantic type
name to a concrete type. The Go function panics on an unknown name, which
this model renders as `none`. -/
def ReflectType (typ : String) : Option GoType :=
  if typ = "string" then some .stringT
  else if typ = "url" then some flagextURLValueType
  else if typ = "duration" then some timeDurationType
  else if typ = "time" then some flagextTimeType
  else if typ = "boolean" then some .boolT
  else if typ = "int" then some .intT
  else if typ = "float" then some .float64T
  else if typ = "list of string" then some (.sliceT .stringT)
  else if typ = "map of string to string" then some (.mapT .stringT .stringT)
  else if typ = "map of tracker name (string) to matcher (string)" then
    some (.mapT .stringT .stringT)
  else if typ = "relabel_config..." then some relabelConfigSliceType
  else if typ = "map of string to float64" then some (.mapT .stringT .float64T)
  else if typ = "list of duration" then some (.sliceT timeDurationType)
  else none

/-- The fields of a registered `flag.Flag` the engine reads. -/
structure FlagData where
  name : String
  usage : String
  defValue : String
deriving DecidableEq, Repr

/-- Embedding of `RootBlock`: one descriptor of the root block registry. -/
structure RootBlock where
  name : String
  desc : String
  structType : GoType

/-- The package-level collaborators of the engine, passed explicitly: the
flag registry built by `Flags` (storage address, here a field index path,
to flag data), the `RootBlocks` registry, the `fieldcategory` override
table, and the set of types implementing `ExamplerConfig` together with
what their `ExampleDoc` returns. -/
structure Env where
  flags : List (List Nat × FlagData)
  rootBlocks : List RootBlock
  categoryOverrides : List (String × String)
  examples : List (GoType × String × String)

/-- Embedding of `FieldExample`; the `Yaml` payload is the singleton map
from the field key to the example value, kept here as the two strings. -/
structure FieldExample where
  comment : String
  yamlKey : String
  yamlVal : String
deriving DecidableEq, Repr

mutual

/-- Embedding of `ConfigBlock`. `bid` is the allocation identity of the
block (Go pointer identity): every place the source allocates a fresh
block, this model draws a fresh id. The two `FlagsPrefix` fields of the
source are never written by the extraction code and are omitted. -/
inductive ConfigBlock : Type where
  | mk (bid : Nat) (name : String) (desc : String) (entries : ConfigEntries)

/-- The entry sequence of a block, in insertion order. -/
inductive ConfigEntries : Type where
  | nil
  | cons (e : ConfigEntry) (rest : ConfigEntries)

/-- Embedding of `ConfigEntry`, the Go struct tagged by `Kind`: the
`blockEntry` constructor is the `KindBlock` case, `fieldEntry` the
`KindField` case, each carrying exactly the fields of its case. -/
inductive ConfigEntry : Type where
  | blockEntry (name : String) (required : Bool) (block : ConfigBlock)
      (blockDesc : String) (root : Bool)
  | fieldEntry (name : String) (required : Bool) (fieldFlag : String)
      (fieldDesc : String) (fieldType : String) (fieldDefault : String)
      (fieldExample : Option FieldExample) (fieldCategory : String)

end

namespace ConfigEntries

def push (es : ConfigEntries) (e : ConfigEntry) : ConfigEntries :=
  match es with
  | .nil => .cons e .nil
  | .cons x r => .cons x (r.push e)

def length : ConfigEntries → Nat
  | .nil => 0
  | .cons _ r => 1 + r.length

end ConfigEntries

namespace ConfigBlock

def bid : ConfigBlock → Nat
  | .mk i _ _ _ => i

def name : ConfigBlock → String
  | .mk _ n _ _ => n

def desc : ConfigBlock → String
  | .mk _ _ d _ => d

def entries : ConfigBlock → ConfigEntries
  | .mk _ _ _ es => es

/-- Embedding of `ConfigBlock.Add`. -/
def add : ConfigBlock → ConfigEntry → ConfigBlock
  | .mk i n d es, e => .mk i n d (es.push e)

end ConfigBlock

namespace ConfigEntry

def entryName : ConfigEntry → String
  | .blockEntry n _ _ _ _ => n
  | .fieldEntry n _ _ _ _ _ _ _ => n

/-- The allocation id of the block a block-entry references. -/
def refBlockId : ConfigEntry → Option Nat
  | .blockEntry _ _ b _ _ => some b.bid
  | .fieldEntry _ _ _ _ _ _ _ _ => none

def flagOf : ConfigEntry → String
  | .blockEntry _ _ _ _ _ => ""
  | .fieldEntry _ _ fl _ _ _ _ _ => fl

def descOf : ConfigEntry → String
  | .blockEntry _ _ _ d _ => d
  | .fieldEntry _ _ _ d _ _ _ _ => d

def typeOf : ConfigEntry → String
  | .blockEntry _ _ _ _ _ => ""
  | .fieldEntry _ _ _ _ t _ _ _ => t

def defaultOf : ConfigEntry → String
  | .blockEntry _ _ _ _ _ => ""
  | .fieldEntry _ _ _ _ _ d _ _ => d

def categoryOf : ConfigEntry → String
  | .blockEntry _ _ _ _ _ => ""
  | .fieldEntry _ _ _ _ _ _ _ c => c

/-- Embedding of `ConfigEntry.Description`. -/
def description (e : ConfigEntry) : String :=
  if e.categoryOf = "" ∨ e.categoryOf = "basic" then e.descOf
  else "(" ++ e.categoryOf ++ ") " ++ e.descOf

end ConfigEntry

/-- First match of the root block registry scan in `isRootBlock`. -/
def isRootBlockIn (rootBlocks : List RootBlock) (t : GoType) : String × String × Bool :=
  match rootBlocks with
  | [] => ("", "", false)
  | rb :: rest =>
    if GoType.beq t rb.structType then (rb.name, rb.desc, true)
    else isRootBlockIn rest t

/-- Embedding of `isRootBlock` over the `RootBlocks` package variable. -/
def isRootBlock (env : Env) (t : GoType) : String × String × Bool :=
  isRootBlockIn env.rootBlocks t

/-- Exact lookup in the flag registry map by storage address. -/
def lookupFlag (flags : List (List Nat × FlagData)) (addr : List Nat) : Option FlagData :=
  (flags.find? (fun p => p.1 == addr)).map (fun p => p.2)

/-- Embedding of `getFieldFlag`. The Go function also returns an error that
is `nil` on every path, so the error component is dropped here; `none`
covers both the `nocli` exclusion and absence from the registry. -/
def getFieldFlag (env : Env) (f : GoField) (addr : List Nat) : Option FlagData :=
  if isAbsentInCLI f then none
  else lookupFlag env.flags addr

/-- Embedding of `getFieldExample`: a type implementing `ExamplerConfig`
yields an example whose yaml payload is keyed by the field key. -/
def getFieldExample (env : Env) (fieldKey : String) (t : GoType) : Option FieldExample :=
  (env.examples.find? (fun p => GoType.beq p.1 t)).map
    (fun p => { comment := p.2.1, yamlKey := fieldKey, yamlVal := p.2.2 })

/-- Embedding of `getFieldCategory` over the `fieldcategory` override
table. -/
def getFieldCategory (env : Env) (f : GoField) (name : String) : String :=
  match (env.categoryOverrides.find? (fun p => p.1 == name)).map (fun p => p.2) with
  | some category => category
  | none => f.categoryTag

/-- The error kinds the extraction can produce: the two shape checks of
`Config`, the wrapped unclassifiable-type error, and the runtime panic of a
nil `*flag.Flag` dereference. `fuelOut` is an artifact of embedding the
general recursion of `Config` with an explicit fuel argument; the fuel the
top-level entry point supplies always suffices, so Go itself never exhibits
this outcome. -/
inductive GoErr where
  | shape (msg : String)
  | typ (msg : String)
  | nilPanic
  | fuelOut
deriving DecidableEq, Repr

def GoErr.isShape : GoErr → Bool
  | .shape _ => true
  | _ => false

/-- The entry each branch of `getCustomFieldEntry` builds; all five
branches are identical up to the fixed `FieldType` string. The source
reads `fieldFlag.Name` without a nil check, so a field without a resolved
flag makes Go dereference a nil pointer: that panic is the `nilPanic`
error here. -/
def customFieldEntryAux (env : Env) (f : GoField) (addr : List Nat)
    (ft : String) : Except GoErr (Option ConfigEntry) :=
  match getFieldFlag env f addr with
  | none => .error .nilPanic
  | some fieldFlag =>
    .ok (some (.fieldEntry (getFieldName f) (isFieldRequired f) fieldFlag.name
      fieldFlag.usage ft (getFieldDefault f fieldFlag.defValue) none
      (getFieldCategory env f fieldFlag.name)))

/-- Embedding of `getCustomFieldEntry`: the chain of type identity tests
against the special-cased value wrapper types. -/
def getCustomFieldEntry (env : Env) (f : GoField) (addr : List Nat) :
    Except GoErr (Option ConfigEntry) :=
  if GoType.beq f.typ loggingLevelType || GoType.beq f.typ loggingFormatType then
    customFieldEntryAux env f addr "string"
  else if GoType.beq f.typ flagextURLValueType then
    customFieldEntryAux env f addr "url"
  else if GoType.beq f.typ flagextSecretType then
    customFieldEntryAux env f addr "string"
  else if GoType.beq f.typ modelDurationType then
    customFieldEntryAux env f addr "duration"
  else if GoType.beq f.typ flagextTimeType then
    customFieldEntryAux env f addr "time"
  else .ok none

/-- The field entry the generic leaf path of `Config` appends (the code
after the `getFieldFlag` call): one shape when no flag is associated, one
shape carrying the flag data. -/
def leafEntry (env : Env) (f : GoField) (fieldName : String) (addr : List Nat)
    (fieldType : String) : ConfigEntry :=
  match getFieldFlag env f addr with
  | none =>
    .fieldEntry fieldName (isFieldRequired f) "" (getFieldDescription f "")
      fieldType "" (getFieldExample env fieldName f.typ) (getFieldCategory env f "")
  | some fieldFlag =>
    .fieldEntry fieldName (isFieldRequired f) fieldFlag.name
      (getFieldDescription f fieldFlag.usage) fieldType
      (getFieldDefault f fieldFlag.defValue)
      (getFieldExample env fieldName f.typ)
      (getFieldCategory env f fieldFlag.name)

mutual

/-- A structural measure of a type, used only to compute a sufficient fuel
for the embedded recursion of `Config`. -/
def sizeT : GoType → Nat
  | .structT _ fs => (sizeFs fs).succ
  | .sliceT e => (sizeT e).succ
  | .mapT k v => (sizeT k + sizeT v).succ
  | .ptrT e => (sizeT e).succ
  | .namedT _ u => (sizeT u).succ
  | _ => 1

def sizeFs : GoFields → Nat
  | .nil => 1
  | .cons f rest => (sizeF f + sizeFs rest).succ

def sizeF : GoField → Nat
  | .mk _ _ _ _ t => (sizeT t).succ

end

mutual

/-- Embedding of `Config` for a non-nil input block (which is how every
recursive call of the source invokes it): the shape checks, then the field
loop. The mutated `*ConfigBlock` is returned as the first component, the
`blocks` slice of the source as the second, and the allocation counter for
block identities as the third. `fuel` bounds the recursion depth so that
the definition is structural; the top-level entry point supplies enough
fuel for the whole walk. -/
def Config (env : Env) : Nat → ConfigBlock → GoType → List Nat → Nat →
    Except GoErr (ConfigBlock × List ConfigBlock × Nat)
  | 0, _, _, _, _ => .error .fuelOut
  | fuel + 1, block, t, addr, ctr =>
    match t with
    | .ptrT p =>
      match p with
      | .structT structName fs => walkFields env fuel structName block addr 0 fs ctr
      | _ =>
        .error (.shape (tyString p ++ " is a " ++ kindName (goKind p) ++
          " while a struct is expected"))
    | _ =>
      .error (.shape (tyString t ++ " is a " ++ kindName (goKind t) ++
        " while a ptr is expected"))

/-- The field loop of `Config`: `owner` is the printed name of the struct
being walked (used in the wrapped type error), `addr` the storage address
of the struct, `i` the index of the next field. -/
def walkFields (env : Env) : Nat → String → ConfigBlock → List Nat → Nat →
    GoFields → Nat → Except GoErr (ConfigBlock × List ConfigBlock × Nat)
  | 0, _, _, _, _, _, _ => .error .fuelOut
  | fuel + 1, owner, block, addr, i, fs, ctr =>
    match fs with
    | .nil => .ok (block, [], ctr)
    | .cons (.mk fname ytag dtag ctag ftyp) rest =>
      let f : GoField := .mk fname ytag dtag ctag ftyp
      if isFieldHidden f then
        walkFields env fuel owner block addr (i+1) rest ctr
      else
        let fieldName := getFieldName f
        if fieldName = "" && !isFieldInline f then
          walkFields env fuel owner block addr (i+1) rest ctr
        else if goKind ftyp = .kfunc then
          walkFields env fuel owner block addr (i+1) rest ctr
        else if listStartsWith fname.data (("UnusedFlag").data) then
          walkFields env fuel owner block addr (i+1) rest ctr
        else
          match getCustomFieldEntry env f (addr ++ [i]) with
          | .error e => .error e
          | .ok (some fieldEntry) =>
            walkFields env fuel owner (block.add fieldEntry) addr (i+1) rest ctr
          | .ok none =>
            match ftyp with
            | .structT subName subFields =>
              let r := isRootBlock env ftyp
              if !isFieldInline f then
                let blockName := if r.2.2 then r.1 else fieldName
                let blockDesc := if r.2.2 then r.2.1 else getFieldDescription f ""
                let subBlock : ConfigBlock := .mk ctr blockName blockDesc .nil
                match Config env fuel subBlock (.ptrT (.structT subName subFields))
                    (addr ++ [i]) (ctr + 1) with
                | .error e => .error e
                | .ok (filledSub, otherBlocks, ctr') =>
                  let block' := block.add (.blockEntry fieldName (isFieldRequired f)
                    filledSub blockDesc r.2.2)
                  let newBlocks := if r.2.2 then filledSub :: otherBlocks else otherBlocks
                  match walkFields env fuel owner block' addr (i+1) rest ctr' with
                  | .error e => .error e
                  | .ok (b, bs, c) => .ok (b, newBlocks ++ bs, c)
              else
                match Config env fuel block (.ptrT (.structT subName subFields))
                    (addr ++ [i]) ctr with
                | .error e => .error e
                | .ok (block', otherBlocks, ctr') =>
                  match walkFields env fuel owner block' addr (i+1) rest ctr' with
                  | .error e => .error e
                  | .ok (b, bs, c) => .ok (b, otherBlocks ++ bs, c)
            | _ =>
              match getFieldType ftyp with
              | .error msg => .error (.typ ("config=" ++ owner ++ ": " ++ msg))
              | .ok fieldType =>
                walkFields env fuel owner
                  (block.add (leafEntry env f fieldName (addr ++ [i]) fieldType))
                  addr (i+1) rest ctr

end

/-- Embedding of the nil-block (top level) invocation of `Config`: a fresh
block is allocated (id 0), prepended to the output, and filled by the
walk; allocation ids for sub-blocks start at 1. The fuel supplied is the
structural size of the input type, which always suffices. -/
def ConfigTop (env : Env) (t : GoType) : Except GoErr (List ConfigBlock) :=
  match Config env (sizeT t) (.mk 0 "" "" .nil) t [] 1 with
  | .error e => .error e
  | .ok (top, others, _) => .ok (top :: others)

end MimirParse

namespace MimirValidation

/-- Embedding of `Aggregator`: the `Metrics` set (a Go `map[string]struct`
value set) is represented by its key list without duplicates, in first
insertion order. -/
structure Aggregator where
  url : String
  metrics : List String
deriving DecidableEq, Repr

/-- Embedding of `Aggregators`. -/
abbrev Aggregators := List Aggregator

/-- Embedding of `AggregatorEncoded` (the json/yaml wire form). -/
structure AggregatorEncoded where
  url : String
  metrics : List String
deriving DecidableEq, Repr

/-- Embedding of `AggregatorsEncoded`. -/
structure AggregatorsEncoded where
  aggregators : List AggregatorEncoded
deriving DecidableEq, Repr

/-- One Go map write `m[k] = struct` on the key-set representation. -/
def insertMetric (m : List String) (k : String) : List String :=
  if k ∈ m then m else m ++ [k]

/-- The key set collected by the inner loop of `applyEncoded`. -/
def metricsSet (ms : List String) : List String :=
  ms.foldl insertMetric []

/-- Embedding of `Aggregators.applyEncoded`: the receiver is first reset
to length zero, then one decoded aggregator is appended per encoded
entry, so the result never depends on the previous contents. -/
def applyEncoded (_a : Aggregators) (aggsEnc : AggregatorsEncoded) : Aggregators :=
  aggsEnc.aggregators.foldl
    (fun acc aggEnc => acc ++ [{ url := aggEnc.url, metrics := metricsSet aggEnc.metrics }]) []

/-- Embedding of `Aggregators.UnmarshalJSON`. The `encoding/json` decode of
the input bytes is external library code; its outcome is taken as the
`decoded` argument. The result is the returned error (if any) paired with
the post-state of the receiver: the early return on a decode error leaves
the receiver untouched. -/
def UnmarshalJSON (a : Aggregators) (decoded : Except String AggregatorsEncoded) :
    Option String × Aggregators :=
  match decoded with
  | .error err => (some err, a)
  | .ok aggsEnc => (none, applyEncoded a aggsEnc)

end MimirValidation

deriving instance DecidableEq for Except

namespace MimirParse

def ConfigEntries.toList : ConfigEntries → List ConfigEntry
  | .nil => []
  | .cons e r => e :: toList r

/-- A flag registry is well formed when every registered flag has a
non-empty name (a flag is registered under its name, so a registered
nameless flag does not occur in practice). -/
def wellFormedFlags (env : Env) : Prop :=
  ∀ p ∈ env.flags, p.2.name ≠ ""

/-- The representation convention for defined types: the underlying type
of a Go defined type is never itself a defined type and a defined struct
type is represented by `structT`, so a `namedT` node never wraps another
`namedT` or a `structT`. -/
def namedOk (t : GoType) : Bool :=
  match t with
  | .namedT _ u =>
    match u with
    | .namedT _ _ => false
    | .structT _ _ => false
    | _ => true
  | _ => true

/-- An environment with nothing registered. -/
def envEmpty : Env :=
  { flags := [], rootBlocks := [], categoryOverrides := [], examples := [] }

/-- The field list of the root section type below: one boolean leaf. -/
def c1RootFields : GoFields := .cons (.mk "Enabled" "enabled" "" "" .boolT) .nil

/-- A section type registered as a root block, with one boolean leaf. -/
def c1RootType : GoType := .structT "pkg.Root" c1RootFields

/-- The field list of the configuration struct below: the root type twice. -/
def c1CfgFields : GoFields :=
  .cons (.mk "A" "a" "" "" c1RootType) (.cons (.mk "B" "b" "" "" c1RootType) .nil)

/-- A configuration struct containing the root type twice. -/
def c1CfgType : GoType := .structT "pkg.Cfg" c1CfgFields

def c1Env : Env :=
  { flags := [],
    rootBlocks := [{ name := "root_block", desc := "root desc", structType := c1RootType }],
    categoryOverrides := [], examples := [] }

/-- The field entry produced for the boolean leaf of `c1RootType` under
`c1Env` (no flag registered). -/
def c1RootEntry : ConfigEntry :=
  .fieldEntry "enabled" false "" "" "boolean" "" none ""

def c1SubBlock1 : ConfigBlock :=
  .mk 1 "root_block" "root desc" (.cons c1RootEntry .nil)

def c1SubBlock2 : ConfigBlock :=
  .mk 2 "root_block" "root desc" (.cons c1RootEntry .nil)

def c1TopBlock : ConfigBlock :=
  .mk 0 "" ""
    (.cons (.blockEntry "a" false c1SubBlock1 "root desc" true)
      (.cons (.blockEntry "b" false c1SubBlock2 "root desc" true) .nil))

/-- A `logging.Level` field marked `nocli`, as `server.Config` marks its
log-level field. -/
def c7Field : GoField := .mk "LogLevel" "log_level" "nocli" "" loggingLevelType

def c7CfgType : GoType := .structT "server.Config" (.cons c7Field .nil)

end MimirParse

/-! ## Theorems settling the claims -/

namespace MimirValidation

theorem foldl_append_singleton {α β : Type} (g : α → β) :
    ∀ (l : List α) (init : List β),
      l.foldl (fun acc x => acc ++ [g x]) init = init ++ l.map g := by
  intro l
  induction l with
  | nil => intro init; simp
  | cons x xs ih => intro init; simp [ih]

/-- C10: if the decode of the input fails, `UnmarshalJSON` reports the
error and leaves the receiver unchanged; if it succeeds, the receiver
afterwards holds exactly one decoded aggregator per encoded entry (its url
copied, its metrics list turned into a set), with none of the previous
entries surviving. -/
theorem aggregators_unmarshal_c10 (a : Aggregators)
    (decoded : Except String AggregatorsEncoded) :
    (∀ err, decoded = .error err → UnmarshalJSON a decoded = (some err, a)) ∧
    (∀ enc, decoded = .ok enc →
      UnmarshalJSON a decoded =
        (none, enc.aggregators.map fun aggEnc =>
          { url := aggEnc.url, metrics := metricsSet aggEnc.metrics })) := by
  constructor
  · intro err h
    subst h
    rfl
  · intro enc h
    subst h
    simp [UnmarshalJSON, applyEncoded, foldl_append_singleton]

/-- Witness for C10 at a concrete decode outcome. -/
theorem aggregators_unmarshal_c10_witness :
    UnmarshalJSON [{ url := "old", metrics := ["m"] }]
        (.ok { aggregators := [{ url := "new", metrics := ["x", "x", "y"] }] }) =
      (none, [{ url := "new", metrics := ["x", "y"] }]) := by
  have h := (aggregators_unmarshal_c10 [{ url := "old", metrics := ["m"] }]
    (.ok { aggregators := [{ url := "new", metrics := ["x", "x", "y"] }] })).2
    { aggregators := [{ url := "new", metrics := ["x", "x", "y"] }] } rfl
  exact h.trans (by decide)

end MimirValidation

namespace MimirParse

theorem splitFirst_of_not_mem (sep : Char) :
    ∀ cs : List Char, sep ∉ cs → splitFirst sep cs = (cs, none) := by
  intro cs
  induction cs with
  | nil => intro _; rfl
  | cons c cs ih =>
    intro h
    have hc : ¬ c = sep := by
      intro e
      exact h (by simp [e])
    simp [splitFirst, hc, ih (fun m => h (List.mem_cons_of_mem _ m))]

/-- C9: parsing a per-field documentation annotation is total and never
aborts extraction (the parser has no failure outcome): an empty tag yields
the empty annotation map, a non-empty tag yields one entry per
pipe-separated token, and a token without an equals sign becomes a key
mapped to the empty string. -/
theorem doc_tag_parse_c9 (f : GoField) :
    (f.docTag = "" → parseDocTag f = []) ∧
    (f.docTag ≠ "" →
      parseDocTag f = (splitOnChar '|' f.docTag.data).map (fun cs => docTagEntry ⟨cs⟩)) ∧
    (∀ entry : String, '=' ∉ entry.data → docTagEntry entry = (entry, "")) := by
  refine ⟨fun h => by simp [parseDocTag, h], fun h => by simp [parseDocTag, h], ?_⟩
  intro entry h
  unfold docTagEntry
  rw [splitFirst_of_not_mem '=' entry.data h]

/-- Witness for C9 at concrete annotation strings. -/
theorem doc_tag_parse_c9_witness :
    parseDocTag (.mk "X" "x" "" "" .boolT) = [] ∧
    docTagEntry "novalue" = ("novalue", "") ∧
    parseDocTag (.mk "X" "x" "hidden|default=3|weird" "" .boolT) =
      [("hidden", ""), ("default", "3"), ("weird", "")] := by
  refine ⟨(doc_tag_parse_c9 (.mk "X" "x" "" "" .boolT)).1 rfl,
    (doc_tag_parse_c9 (.mk "X" "x" "" "" .boolT)).2.2 "novalue" (by decide), ?_⟩
  exact ((doc_tag_parse_c9 (.mk "X" "x" "hidden|default=3|weird" "" .boolT)).2.1
    (by decide)).trans (by decide)

/-- C8 counterexample: for a leaf field with no category annotation and a
flag name without a category override, the produced category is the empty
string, not the string "basic". -/
theorem field_category_c8_counterexample :
    getFieldCategory envEmpty (.mk "Timeout" "timeout" "" "" .intT) "timeout" = "" ∧
    ("" : String) ≠ "basic" := ⟨rfl, by decide⟩

/-- C8 (amended): with no category override for the flag name and no
category annotation on the field, the produced field entry's category is
the empty string, which the `Description` renderer treats identically to
the category "basic". -/
theorem field_category_c8 (env : Env) (f : GoField) (name : String)
    (h1 : env.categoryOverrides.find? (fun p => p.1 == name) = none)
    (h2 : f.categoryTag = "") :
    getFieldCategory env f name = "" ∧
    (∀ n r fl d t df ex,
      (ConfigEntry.fieldEntry n r fl d t df ex (getFieldCategory env f name)).description =
        (ConfigEntry.fieldEntry n r fl d t df ex "basic").description) := by
  have hc : getFieldCategory env f name = "" := by
    simp [getFieldCategory, h1, h2]
  refine ⟨hc, ?_⟩
  intro n r fl d t df ex
  rw [hc]
  simp [ConfigEntry.description, ConfigEntry.categoryOf, ConfigEntry.descOf]

/-- Witness for C8 (amended) at a concrete field and environment. -/
theorem field_category_c8_witness :
    getFieldCategory envEmpty (.mk "Port" "port" "" "" .intT) "port" = "" := by
  exact (field_category_c8 envEmpty (.mk "Port" "port" "" "" .intT) "port" rfl rfl).1

/-- C4 counterexample: `ReflectType "url"` returns the wrapper struct type
`flagext.URLValue`, and classifying that type does not yield "url" back:
the classifier's override matches only the printed name of a bare url
pointer, so the wrapper falls to the structural fallback and is rejected
as an unsupported struct. -/
theorem reify_classify_c4_counterexample :
    ReflectType "url" = some flagextURLValueType ∧
    getFieldType flagextURLValueType = .error "unsupported data type struct" :=
  ⟨rfl, rfl⟩

/-- C4 (amended): classifying the type `ReflectType` returns yields the
same semantic name back for "string", "duration", "boolean", "int",
"float" and "list of string"; the round trip fails for "url" and "time",
whose reified wrapper types the classifier rejects. -/
theorem reify_classify_c4 :
    ((ReflectType "string").map getFieldType = some (.ok "string")) ∧
    ((ReflectType "duration").map getFieldType = some (.ok "duration")) ∧
    ((ReflectType "boolean").map getFieldType = some (.ok "boolean")) ∧
    ((ReflectType "int").map getFieldType = some (.ok "int")) ∧
    ((ReflectType "float").map getFieldType = some (.ok "float")) ∧
    ((ReflectType "list of string").map getFieldType = some (.ok "list of string")) ∧
    ((ReflectType "time").map getFieldType =
      some (.error "unsupported data type struct")) := by
  decide

/-- C7: a special-cased wrapper field (here a `logging.Level` marked
`nocli`) resolves to no flag, and `getCustomFieldEntry` then dereferences
the absent flag unconditionally: extraction aborts with the nil-pointer
panic instead of producing a field entry without flag data. -/
theorem custom_field_nocli_c7 :
    getFieldFlag envEmpty c7Field [0] = none ∧
    getCustomFieldEntry envEmpty c7Field [0] = .error .nilPanic ∧
    ConfigTop envEmpty (.ptrT c7CfgType) = .error .nilPanic :=
  ⟨rfl, rfl, rfl⟩

end MimirParse

namespace MimirParse

theorem lookupFlag_name_ne (env : Env) (hwf : wellFormedFlags env)
    (addr : List Nat) (fl : FlagData) (hl : lookupFlag env.flags addr = some fl) :
    fl.name ≠ "" := by
  unfold lookupFlag at hl
  cases hf : env.flags.find? (fun p => p.1 == addr) with
  | none => rw [hf] at hl; simp at hl
  | some p =>
    rw [hf] at hl
    simp at hl
    subst hl
    exact hwf p (List.mem_of_find?_eq_some hf)

/-- C2: a generic leaf field entry carries a non-empty flag name exactly
when the field is not marked `nocli` and its storage address is present in
the flag registry; when a flag is resolved, the entry's flag name is the
registry name and its default is the registry default text unless a
non-empty doc-tag default overrides it. -/
theorem leaf_flag_c2 (env : Env) (f : GoField) (fieldName : String)
    (addr : List Nat) (fieldType : String) (hwf : wellFormedFlags env) :
    ((leafEntry env f fieldName addr fieldType).flagOf ≠ "" ↔
      (isAbsentInCLI f = false ∧ lookupFlag env.flags addr ≠ none)) ∧
    (∀ fl, getFieldFlag env f addr = some fl →
      (leafEntry env f fieldName addr fieldType).flagOf = fl.name ∧
      (leafEntry env f fieldName addr fieldType).defaultOf =
        (if getDocTagValue f "default" ≠ "" then getDocTagValue f "default"
         else fl.defValue)) := by
  constructor
  · cases hff : getFieldFlag env f addr with
    | none =>
      have hflag : (leafEntry env f fieldName addr fieldType).flagOf = "" := by
        simp [leafEntry, hff, ConfigEntry.flagOf]
      rw [hflag]
      simp only [ne_eq, not_true_eq_false, false_iff]
      unfold getFieldFlag at hff
      intro hcontra
      rcases hcontra with ⟨ha, hl⟩
      rw [ha] at hff
      simp at hff
      exact hl hff
    | some fl =>
      have hflag : (leafEntry env f fieldName addr fieldType).flagOf = fl.name := by
        simp [leafEntry, hff, ConfigEntry.flagOf]
      rw [hflag]
      unfold getFieldFlag at hff
      by_cases ha : isAbsentInCLI f
      · simp [ha] at hff
      · simp [ha] at hff
        constructor
        · intro _
          refine ⟨by simpa using ha, ?_⟩
          rw [hff]
          simp
        · intro _
          exact lookupFlag_name_ne env hwf addr fl hff
  · intro fl hff
    refine ⟨by simp [leafEntry, hff, ConfigEntry.flagOf], ?_⟩
    simp [leafEntry, hff, ConfigEntry.defaultOf, getFieldDefault]

/-- Witness for C2 at a concrete environment, field and address. -/
theorem leaf_flag_c2_witness :
    wellFormedFlags
      { flags := [([0], { name := "server.port", usage := "Server port.", defValue := "80" })],
        rootBlocks := [], categoryOverrides := [], examples := [] } ∧
    ((leafEntry
        { flags := [([0], { name := "server.port", usage := "Server port.", defValue := "80" })],
          rootBlocks := [], categoryOverrides := [], examples := [] }
        (.mk "Port" "port" "" "" .intT) "port" [0] "int").flagOf = "server.port") := by
  have hwf : wellFormedFlags
      { flags := [([0], { name := "server.port", usage := "Server port.", defValue := "80" })],
        rootBlocks := [], categoryOverrides := [], examples := [] } := by
    intro p hp
    simp at hp
    subst hp
    decide
  refine ⟨hwf, ?_⟩
  have h := (leaf_flag_c2
    { flags := [([0], { name := "server.port", usage := "Server port.", defValue := "80" })],
      rootBlocks := [], categoryOverrides := [], examples := [] }
    (.mk "Port" "port" "" "" .intT) "port" [0] "int" hwf).2
    { name := "server.port", usage := "Server port.", defValue := "80" } rfl
  exact h.1

end MimirParse

namespace MimirParse

/-- The structural-fallback clauses of the classifier, for a type outside
the override table: dispatch follows `reflect.Type.Kind()`. -/
theorem structural_clauses (t : GoType) (hn : namedOk t = true)
    (hov : overrideFieldType t = none) :
    (goKind t = .kbool → getFieldType t = .ok "boolean") ∧
    (goKind t ∈ [GoKind.kint, .kint8, .kint16, .kint32, .kint64,
        .kuint, .kuint8, .kuint16, .kuint32, .kuint64] →
      getFieldType t = .ok "int") ∧
    ((goKind t = .kfloat32 ∨ goKind t = .kfloat64) → getFieldType t = .ok "float") ∧
    (goKind t = .kstring → getFieldType t = .ok "string") ∧
    (goKind t = .kslice → getFieldType t =
      (match getFieldType (goElem t) with
       | .ok s => .ok ("list of " ++ s)
       | .error err => .error err)) ∧
    (goKind t = .kmap → getFieldType t =
      .ok ("map of " ++ tyString (goKey t) ++ " to " ++ tyString (goElem t))) ∧
    ((goKind t = .kptr ∨ goKind t = .kfunc ∨ goKind t = .kchan ∨ goKind t = .kstruct) →
      getFieldType t = .error ("unsupported data type " ++ kindName (goKind t))) := by
  have he : getFieldType t = structuralFieldType t := by
    unfold getFieldType
    rw [hov]
  rw [he]
  clear he hov
  cases t with
  | namedT n u =>
    cases u <;>
      (try (simp [namedOk] at hn)) <;>
      refine ⟨?_, ?_, ?_, ?_, ?_, ?_, ?_⟩ <;>
      intro hk <;>
      simp_all [structuralFieldType, getFieldType, goKind, goElem, goKey, kindName]
  | _ =>
    refine ⟨?_, ?_, ?_, ?_, ?_, ?_, ?_⟩ <;>
      intro hk <;>
      simp_all [structuralFieldType, getFieldType, goKind, goElem, goKey, kindName]

end MimirParse

namespace MimirParse

/-- C3: for every type outside the explicit override table the classifier
follows the structural fallback — "boolean" for booleans, "int" for every
integer width, "float" for every floating width, "string" for text,
"list of " plus the recursive classification of the element for slices,
"map of K to V" from the literal printed key and element names for maps
(without recursive classification), and an unsupported-type error for
every other kind — while every type whose printed name is in the override
table gets that entry's fixed string regardless of structure. -/
theorem classifier_c3 (t : GoType) (hn : namedOk t = true) :
    (overrideFieldType t = none →
      ((goKind t = .kbool → getFieldType t = .ok "boolean") ∧
       (goKind t ∈ [GoKind.kint, .kint8, .kint16, .kint32, .kint64,
           .kuint, .kuint8, .kuint16, .kuint32, .kuint64] →
         getFieldType t = .ok "int") ∧
       ((goKind t = .kfloat32 ∨ goKind t = .kfloat64) → getFieldType t = .ok "float") ∧
       (goKind t = .kstring → getFieldType t = .ok "string") ∧
       (goKind t = .kslice → getFieldType t =
         (match getFieldType (goElem t) with
          | .ok s => .ok ("list of " ++ s)
          | .error err => .error err)) ∧
       (goKind t = .kmap → getFieldType t =
         .ok ("map of " ++ tyString (goKey t) ++ " to " ++ tyString (goElem t))) ∧
       ((goKind t = .kptr ∨ goKind t = .kfunc ∨ goKind t = .kchan ∨ goKind t = .kstruct) →
         getFieldType t = .error ("unsupported data type " ++ kindName (goKind t))))) ∧
    (∀ s, overrideFieldType t = some s → getFieldType t = .ok s) ∧
    (tyString t = "*url.URL" → getFieldType t = .ok "url") ∧
    (tyString t = "time.Duration" → getFieldType t = .ok "duration") ∧
    (tyString t = "flagext.StringSliceCSV" → getFieldType t = .ok "string") ∧
    (tyString t = "flagext.CIDRSliceCSV" → getFieldType t = .ok "string") ∧
    (tyString t = "[]*relabel.Config" → getFieldType t = .ok "relabel_config...") ∧
    (tyString t = "ingester.ActiveSeriesCustomTrackersConfig" →
      getFieldType t = .ok "map of tracker name (string) to matcher (string)") := by
  refine ⟨fun hov => structural_clauses t hn hov, ?_, ?_, ?_, ?_, ?_, ?_, ?_⟩
  · intro s h
    unfold getFieldType
    rw [h]
  all_goals
    intro h
    unfold getFieldType overrideFieldType
    rw [h]
    simp +decide [tyString, urlURLPtrType, timeDurationType, stringSliceCSVType,
      cidrSliceCSVType, relabelConfigSliceType, activeSeriesTrackersType]

/-- Witness for C3 at a slice of booleans (outside the override table) and
at the duration override type. -/
theorem classifier_c3_witness :
    namedOk (.sliceT .boolT) = true ∧
    overrideFieldType (.sliceT .boolT) = none ∧
    getFieldType (.sliceT .boolT) = .ok "list of boolean" ∧
    getFieldType timeDurationType = .ok "duration" := by
  refine ⟨by decide, by decide, ?_, ?_⟩
  · have hs := ((classifier_c3 (.sliceT .boolT) (by decide)).1 (by decide)).2.2.2.2.1
      (by decide)
    exact hs.trans (by decide)
  · exact (classifier_c3 timeDurationType (by decide)).2.2.2.1 (by decide)

end MimirParse

namespace MimirParse

theorem ConfigBlock.add_bid (b : ConfigBlock) (e : ConfigEntry) : (b.add e).bid = b.bid := by
  cases b; rfl

theorem ConfigBlock.add_name (b : ConfigBlock) (e : ConfigEntry) : (b.add e).name = b.name := by
  cases b; rfl

theorem ConfigBlock.add_desc (b : ConfigBlock) (e : ConfigEntry) : (b.add e).desc = b.desc := by
  cases b; rfl

/-- The field loop only ever appends entries to the block it is given: the
identity, name and description of the accumulated block are preserved. -/
theorem walk_preserves_meta :
    ∀ (fuel : Nat) (env : Env) (owner : String) (block : ConfigBlock)
      (addr : List Nat) (i : Nat) (fs : GoFields) (ctr : Nat)
      (b : ConfigBlock) (bs : List ConfigBlock) (c : Nat),
      walkFields env fuel owner block addr i fs ctr = .ok (b, bs, c) →
      b.bid = block.bid ∧ b.name = block.name ∧ b.desc = block.desc := by
  intro fuel
  induction fuel using Nat.strong_induction_on with
  | _ fuel ih =>
    intro env owner block addr i fs ctr b bs c h
    cases fuel with
    | zero => simp [walkFields] at h
    | succ fuel =>
      cases fs with
      | nil =>
        simp [walkFields] at h
        rcases h with ⟨h1, h2, h3⟩
        subst h1
        exact ⟨rfl, rfl, rfl⟩
      | cons f rest =>
        cases f with
        | mk fname ytag dtag ctag ftyp =>
          simp only [walkFields] at h
          repeat' split at h
          all_goals try (exfalso; simp at h; done)
          all_goals try (
            have hres := ih fuel (Nat.lt_succ_self _) _ _ _ _ _ _ _ _ _ _ h
            simpa [ConfigBlock.add_bid, ConfigBlock.add_name, ConfigBlock.add_desc] using hres)
          · simp only [Except.ok.injEq, Prod.mk.injEq] at h
            obtain ⟨h1, h2, h3⟩ := h
            subst h1
            have hres := ih fuel (Nat.lt_succ_self _) _ _ _ _ _ _ _ _ _ _ (by assumption)
            simpa [ConfigBlock.add_bid, ConfigBlock.add_name, ConfigBlock.add_desc] using hres
          · simp only [Except.ok.injEq, Prod.mk.injEq] at h
            obtain ⟨h1, h2, h3⟩ := h
            subst h1
            have hres := ih fuel (Nat.lt_succ_self _) _ _ _ _ _ _ _ _ _ _ (by assumption)
            simpa [ConfigBlock.add_bid, ConfigBlock.add_name, ConfigBlock.add_desc] using hres
          · rename_i hcfg x2 b2 bs2 c2 hrest
            simp only [Except.ok.injEq, Prod.mk.injEq] at h
            obtain ⟨h1, h2, h3⟩ := h
            subst h1
            cases fuel with
            | zero => simp [Config] at hcfg
            | succ f =>
              simp only [Config] at hcfg
              have hres1 := ih f (by omega) _ _ _ _ _ _ _ _ _ _ hcfg
              have hres2 := ih (f+1) (by omega) _ _ _ _ _ _ _ _ _ _ hrest
              exact ⟨hres2.1.trans hres1.1, hres2.2.1.trans hres1.2.1,
                hres2.2.2.trans hres1.2.2⟩

theorem walk_fresh_blocks :
    ∀ (fuel : Nat) (env : Env) (owner : String) (block : ConfigBlock)
      (addr : List Nat) (i : Nat) (fs : GoFields) (ctr : Nat)
      (b : ConfigBlock) (bs : List ConfigBlock) (c : Nat),
      walkFields env fuel owner block addr i fs ctr = .ok (b, bs, c) →
      ctr ≤ c ∧ (∀ blk ∈ bs, ctr ≤ blk.bid ∧ blk.bid < c) ∧
      List.Pairwise (fun x y : ConfigBlock => x.bid < y.bid) bs := by
  intro fuel
  induction fuel using Nat.strong_induction_on with
  | _ fuel ih =>
    intro env owner block addr i fs ctr b bs c h
    cases fuel with
    | zero => simp [walkFields] at h
    | succ fuel =>
      cases fs with
      | nil =>
        simp [walkFields] at h
        rcases h with ⟨h1, h2, h3⟩
        subst h2
        subst h3
        exact ⟨Nat.le_refl _, by simp, by simp⟩
      | cons f rest =>
        cases f with
        | mk fname ytag dtag ctag ftyp =>
          simp only [walkFields] at h
          repeat' split at h
          all_goals try (exfalso; simp at h; done)
          all_goals try (exact ih fuel (Nat.lt_succ_self _) _ _ _ _ _ _ _ _ _ _ h)
          -- non-inline struct field, promoted root
          · rename_i xc fsub obs ctr2 hcfg xw bw bsw cw hrest hroot
            simp only [Except.ok.injEq, Prod.mk.injEq] at h
            obtain ⟨hb, hbs, hc⟩ := h
            subst hbs
            subst hc
            have hrs := ih fuel (Nat.lt_succ_self _) _ _ _ _ _ _ _ _ _ _ hrest
            cases fuel with
            | zero => simp [Config] at hcfg
            | succ f =>
              simp only [Config] at hcfg
              have hcs := ih f (by omega) _ _ _ _ _ _ _ _ _ _ hcfg
              have hcm := walk_preserves_meta _ _ _ _ _ _ _ _ _ _ _ hcfg
              have hfb : fsub.bid = ctr := hcm.1
              refine ⟨by omega, ?_, ?_⟩
              · intro blk hblk
                simp only [List.mem_append, List.mem_cons] at hblk
                rcases hblk with (rfl | hin) | hin
                · omega
                · have := hcs.2.1 blk hin
                  omega
                · have := hrs.2.1 blk hin
                  omega
              · refine List.pairwise_append.mpr ⟨?_, hrs.2.2, ?_⟩
                · refine List.pairwise_cons.mpr ⟨?_, hcs.2.2⟩
                  intro y hy
                  have := hcs.2.1 y hy
                  omega
                · intro x hx y hy
                  have hyb := hrs.2.1 y hy
                  simp only [List.mem_cons] at hx
                  rcases hx with rfl | hx
                  · omega
                  · have := hcs.2.1 x hx
                    omega
          -- non-inline struct field, not a root
          · rename_i xc fsub obs ctr2 hcfg xw bw bsw cw hrest hroot
            simp only [Except.ok.injEq, Prod.mk.injEq] at h
            obtain ⟨hb, hbs, hc⟩ := h
            subst hbs
            subst hc
            have hrs := ih fuel (Nat.lt_succ_self _) _ _ _ _ _ _ _ _ _ _ hrest
            cases fuel with
            | zero => simp [Config] at hcfg
            | succ f =>
              simp only [Config] at hcfg
              have hcs := ih f (by omega) _ _ _ _ _ _ _ _ _ _ hcfg
              refine ⟨by omega, ?_, ?_⟩
              · intro blk hblk
                simp only [List.mem_append] at hblk
                rcases hblk with hin | hin
                · have := hcs.2.1 blk hin
                  omega
                · have := hrs.2.1 blk hin
                  omega
              · refine List.pairwise_append.mpr ⟨hcs.2.2, hrs.2.2, ?_⟩
                intro x hx y hy
                have := hcs.2.1 x hx
                have := hrs.2.1 y hy
                omega
          -- inline struct field
          · rename_i hcfg xw bw bsw cw hrest
            simp only [Except.ok.injEq, Prod.mk.injEq] at h
            obtain ⟨hb, hbs, hc⟩ := h
            subst hbs
            subst hc
            have hrs := ih fuel (Nat.lt_succ_self _) _ _ _ _ _ _ _ _ _ _ hrest
            cases fuel with
            | zero => simp [Config] at hcfg
            | succ f =>
              simp only [Config] at hcfg
              have hcs := ih f (by omega) _ _ _ _ _ _ _ _ _ _ hcfg
              refine ⟨by omega, ?_, ?_⟩
              · intro blk hblk
                simp only [List.mem_append] at hblk
                rcases hblk with hin | hin
                · have := hcs.2.1 blk hin
                  omega
                · have := hrs.2.1 blk hin
                  omega
              · refine List.pairwise_append.mpr ⟨hcs.2.2, hrs.2.2, ?_⟩
                intro x hx y hy
                have := hcs.2.1 x hx
                have := hrs.2.1 y hy
                omega

theorem custom_entry_error (env : Env) (f : GoField) (addr : List Nat) (e : GoErr)
    (h : getCustomFieldEntry env f addr = .error e) : e = .nilPanic := by
  unfold getCustomFieldEntry customFieldEntryAux at h
  repeat' split at h
  all_goals simp_all

/-- Once the field loop has been entered, no error it produces is a shape
error: the shape checks of nested `Config` calls always pass because a
nested section is always handed over as a pointer to a struct. -/
theorem walk_no_shape :
    ∀ (fuel : Nat) (env : Env) (owner : String) (block : ConfigBlock)
      (addr : List Nat) (i : Nat) (fs : GoFields) (ctr : Nat) (e : GoErr),
      walkFields env fuel owner block addr i fs ctr = .error e → e.isShape = false := by
  intro fuel
  induction fuel using Nat.strong_induction_on with
  | _ fuel ih =>
    intro env owner block addr i fs ctr e h
    cases fuel with
    | zero =>
      simp [walkFields] at h
      subst h
      rfl
    | succ fuel =>
      cases fs with
      | nil => simp [walkFields] at h
      | cons f rest =>
        cases f with
        | mk fname ytag dtag ctag ftyp =>
          simp only [walkFields] at h
          repeat' split at h
          all_goals try (exfalso; simp at h; done)
          all_goals try (exact ih fuel (Nat.lt_succ_self _) _ _ _ _ _ _ _ _ h)
          all_goals simp only [Except.error.injEq] at h
          all_goals subst h
          all_goals try rfl
          all_goals try (have hc := custom_entry_error _ _ _ _ (by assumption); subst hc; rfl)
          all_goals try (exact ih fuel (Nat.lt_succ_self _) _ _ _ _ _ _ _ _ (by assumption))
          all_goals rename_i hcfg
          all_goals (
            cases fuel with
            | zero =>
              simp [Config] at hcfg
              subst hcfg
              rfl
            | succ f =>
              simp only [Config] at hcfg
              exact ih f (by omega) _ _ _ _ _ _ _ _ hcfg)

end MimirParse

namespace MimirParse

/-- C5: a successful top-level (nil-block) `Config` call returns a list
whose first element is the block allocated for the caller's value (id 0,
empty name and description) filled by the complete field walk of that
value; the root block registry is never consulted for the top-level type
itself, so this holds even when the caller's type is registered as a root
block. -/
theorem first_block_c5 (env : Env) (n : String) (fs : GoFields) :
    ConfigTop env (.ptrT (.structT n fs)) =
      (match walkFields env (sizeFs fs).succ n (.mk 0 "" "" .nil) [] 0 fs 1 with
       | .error e => .error e
       | .ok (top, others, _) => .ok (top :: others)) ∧
    (∀ l, ConfigTop env (.ptrT (.structT n fs)) = .ok l →
      ∃ top rest, l = top :: rest ∧ top.bid = 0 ∧ top.name = "" ∧ top.desc = "") := by
  have he : ConfigTop env (.ptrT (.structT n fs)) =
      (match walkFields env (sizeFs fs).succ n (.mk 0 "" "" .nil) [] 0 fs 1 with
       | .error e => .error e
       | .ok (top, others, _) => .ok (top :: others)) := rfl
  refine ⟨he, ?_⟩
  intro l hl
  rw [he] at hl
  cases hw : walkFields env (sizeFs fs).succ n (.mk 0 "" "" .nil) [] 0 fs 1 with
  | error e =>
    rw [hw] at hl
    simp at hl
  | ok r =>
    obtain ⟨top, others, ctr⟩ := r
    rw [hw] at hl
    simp at hl
    have hp := walk_preserves_meta _ _ _ _ _ _ _ _ _ _ _ hw
    exact ⟨top, others, hl.symm, hp.1, hp.2.1, hp.2.2⟩

/-- Witness for C5: the caller's type is itself registered as a root block,
and the first returned block is still the expanded caller's block with
id 0 and empty name. -/
theorem first_block_c5_witness :
    (isRootBlock c1Env c1RootType).2.2 = true ∧
    (∃ top rest,
      ([ConfigBlock.mk 0 "" "" (.cons c1RootEntry .nil)] : List ConfigBlock) = top :: rest ∧
      top.bid = 0 ∧ top.name = "" ∧ top.desc = "") := by
  refine ⟨by decide, ?_⟩
  exact (first_block_c5 c1Env "pkg.Root"
    (.cons (.mk "Enabled" "enabled" "" "" .boolT) .nil)).2
    [ConfigBlock.mk 0 "" "" (.cons c1RootEntry .nil)] rfl

/-- C6: a non-pointer input fails the shape check with a shape error, a
pointer to a non-struct fails it with a shape error, and for a pointer to
a struct the shape check passes at every level: whatever error a full
extraction returns is never a shape error. -/
theorem shape_check_c6 (env : Env) (t : GoType) :
    ((∀ p, t ≠ .ptrT p) → ∃ m, ConfigTop env t = .error (.shape m)) ∧
    (∀ p, t = .ptrT p → (∀ sn sfs, p ≠ .structT sn sfs) →
      ∃ m, ConfigTop env t = .error (.shape m)) ∧
    (∀ sn sfs, t = .ptrT (.structT sn sfs) →
      ∀ e, ConfigTop env t = .error e → e.isShape = false) := by
  refine ⟨?_, ?_, ?_⟩
  · intro hp
    cases t
    case ptrT p => exact absurd rfl (hp p)
    all_goals exact ⟨_, rfl⟩
  · intro p hp hs
    subst hp
    cases p
    case structT sn sfs => exact absurd rfl (hs sn sfs)
    all_goals exact ⟨_, rfl⟩
  · intro sn sfs ht e he
    subst ht
    have hc : ConfigTop env (.ptrT (.structT sn sfs)) =
        (match walkFields env (sizeFs sfs).succ sn (.mk 0 "" "" .nil) [] 0 sfs 1 with
         | .error e => .error e
         | .ok (top, others, _) => .ok (top :: others)) := rfl
    rw [hc] at he
    cases hw : walkFields env (sizeFs sfs).succ sn (.mk 0 "" "" .nil) [] 0 sfs 1 with
    | error e2 =>
      rw [hw] at he
      simp at he
      subst he
      exact walk_no_shape _ _ _ _ _ _ _ _ _ hw
    | ok r =>
      obtain ⟨top, others, ctr⟩ := r
      rw [hw] at he
      simp at he

/-- Witness for C6: a non-pointer input, a pointer to a non-struct, and a
pointer-to-struct extraction whose (panic) error is not a shape error. -/
theorem shape_check_c6_witness :
    (∃ m, ConfigTop envEmpty .boolT = .error (.shape m)) ∧
    (∃ m, ConfigTop envEmpty (.ptrT .intT) = .error (.shape m)) ∧
    GoErr.isShape .nilPanic = false := by
  refine ⟨?_, ?_, ?_⟩
  · exact (shape_check_c6 envEmpty .boolT).1 (fun p h => by cases h)
  · exact (shape_check_c6 envEmpty (.ptrT .intT)).2.1 .intT rfl (fun sn sfs h => by cases h)
  · exact (shape_check_c6 envEmpty (.ptrT c7CfgType)).2.2 "server.Config"
      (.cons c7Field .nil) rfl .nilPanic rfl

end MimirParse

namespace MimirParse

/-- C1 counterexample: a configuration in which the registered root type
occurs twice produces TWO distinct `ConfigBlock` instances for that type
(allocation ids 1 and 2), and the two block-entries reference these two
different instances — not a single shared one. -/
theorem root_unique_c1_counterexample :
    ConfigTop c1Env (.ptrT c1CfgType) = .ok [c1TopBlock, c1SubBlock1, c1SubBlock2] ∧
    c1SubBlock1.name = "root_block" ∧
    c1SubBlock2.name = "root_block" ∧
    c1SubBlock1.bid ≠ c1SubBlock2.bid ∧
    (ConfigEntries.toList c1TopBlock.entries).map ConfigEntry.refBlockId =
      [some c1SubBlock1.bid, some c1SubBlock2.bid] :=
  ⟨rfl, rfl, rfl, by decide, rfl⟩

/-- C1 (amended): root-block occurrences are not deduplicated — each one
gets its own freshly created instance. First conjunct: whenever the field
loop processes a non-inline field of a type registered as a root block, it
allocates a new ConfigBlock whose identity is the current allocation
counter, appends a block-entry referencing exactly that instance, prepends
that instance to the output list, and every other block in the output
(from the nested recursion or from the remaining fields) carries a
strictly greater identity. Second conjunct: all blocks of a successful
top-level extraction have pairwise distinct (strictly increasing)
identities, so no two positions of the list share an instance. -/
theorem root_unique_c1 :
    (∀ (fuel : Nat) (env : Env) (owner : String) (block : ConfigBlock)
       (addr : List Nat) (i : Nat) (fname ytag dtag ctag sn : String)
       (sfs rest : GoFields) (ctr : Nat)
       (b : ConfigBlock) (bs : List ConfigBlock) (c : Nat),
       isFieldHidden (.mk fname ytag dtag ctag (.structT sn sfs)) = false →
       getFieldName (.mk fname ytag dtag ctag (.structT sn sfs)) ≠ "" →
       isFieldInline (.mk fname ytag dtag ctag (.structT sn sfs)) = false →
       listStartsWith fname.data (("UnusedFlag").data) = false →
       getCustomFieldEntry env (.mk fname ytag dtag ctag (.structT sn sfs))
         (addr ++ [i]) = .ok none →
       (isRootBlock env (.structT sn sfs)).2.2 = true →
       walkFields env (fuel + 1) owner block addr i
         (.cons (.mk fname ytag dtag ctag (.structT sn sfs)) rest) ctr = .ok (b, bs, c) →
       ∃ filledSub otherBlocks bsRest ctr2,
         bs = filledSub :: (otherBlocks ++ bsRest) ∧
         filledSub.bid = ctr ∧
         filledSub.name = (isRootBlock env (.structT sn sfs)).1 ∧
         Config env fuel
           (.mk ctr (isRootBlock env (.structT sn sfs)).1
             (isRootBlock env (.structT sn sfs)).2.1 .nil)
           (.ptrT (.structT sn sfs)) (addr ++ [i]) (ctr + 1) =
           .ok (filledSub, otherBlocks, ctr2) ∧
         walkFields env fuel owner
           (block.add (.blockEntry (getFieldName (.mk fname ytag dtag ctag (.structT sn sfs)))
             (isFieldRequired (.mk fname ytag dtag ctag (.structT sn sfs)))
             filledSub (isRootBlock env (.structT sn sfs)).2.1 true))
           addr (i + 1) rest ctr2 = .ok (b, bsRest, c) ∧
         ctr < ctr2 ∧ ctr2 ≤ c ∧
         (∀ blk ∈ otherBlocks, ctr < blk.bid ∧ blk.bid < ctr2) ∧
         (∀ blk ∈ bsRest, ctr2 ≤ blk.bid ∧ blk.bid < c)) ∧
    (∀ (env : Env) (n : String) (fs : GoFields) (l : List ConfigBlock),
       ConfigTop env (.ptrT (.structT n fs)) = .ok l →
       List.Pairwise (fun x y : ConfigBlock => x.bid < y.bid) l) := by
  constructor
  · intro fuel env owner block addr i fname ytag dtag ctag sn sfs rest ctr b bs c
      hhid hnm hinl hunu hcust hroot h
    simp only [walkFields] at h
    simp [hhid, hnm, hinl, hunu, hcust, hroot, goKind] at h
    split at h
    · exfalso
      simp at h
    · rename_i xw fsub obs ctr2 hcfg
      split at h
      · exfalso
        simp at h
      · rename_i xr br bsr cr hrest
        simp only [Except.ok.injEq, Prod.mk.injEq] at h
        obtain ⟨hb, hbs, hc⟩ := h
        subst hb
        subst hc
        subst hbs
        have hrs := walk_fresh_blocks _ _ _ _ _ _ _ _ _ _ _ hrest
        cases fuel with
        | zero => simp [Config] at hcfg
        | succ f =>
          have hcfg2 := hcfg
          simp only [Config] at hcfg2
          have hcs := walk_fresh_blocks _ _ _ _ _ _ _ _ _ _ _ hcfg2
          have hcm := walk_preserves_meta _ _ _ _ _ _ _ _ _ _ _ hcfg2
          refine ⟨fsub, obs, bsr, ctr2, by simp, hcm.1, hcm.2.1, hcfg, hrest,
            by omega, by omega, ?_, ?_⟩
          · intro blk hblk
            have := hcs.2.1 blk hblk
            omega
          · intro blk hblk
            exact hrs.2.1 blk hblk
  · intro env n fs l hl
    have he : ConfigTop env (.ptrT (.structT n fs)) =
        (match walkFields env (sizeFs fs).succ n (.mk 0 "" "" .nil) [] 0 fs 1 with
         | .error e => .error e
         | .ok (top, others, _) => .ok (top :: others)) := rfl
    rw [he] at hl
    cases hw : walkFields env (sizeFs fs).succ n (.mk 0 "" "" .nil) [] 0 fs 1 with
    | error e =>
      rw [hw] at hl
      simp at hl
    | ok r =>
      obtain ⟨top, others, ctr⟩ := r
      rw [hw] at hl
      simp at hl
      subst hl
      have hmeta := walk_preserves_meta _ _ _ _ _ _ _ _ _ _ _ hw
      have hfresh := walk_fresh_blocks _ _ _ _ _ _ _ _ _ _ _ hw
      refine List.pairwise_cons.mpr ⟨?_, hfresh.2.2⟩
      intro y hy
      have hb := hfresh.2.1 y hy
      have htop : top.bid = 0 := hmeta.1
      omega

/-- Witness for C1 (amended) at the two-occurrence configuration: the
first root occurrence allocates the instance with identity 1, every other
output block of that walk gets a greater identity, and the full
extraction's block list has pairwise distinct identities. -/
theorem root_unique_c1_witness :
    (∃ filledSub otherBlocks bsRest ctr2,
      ([c1SubBlock1, c1SubBlock2] : List ConfigBlock) =
        filledSub :: (otherBlocks ++ bsRest) ∧
      filledSub.bid = 1 ∧ 1 < ctr2) ∧
    List.Pairwise (fun x y : ConfigBlock => x.bid < y.bid)
      [c1TopBlock, c1SubBlock1, c1SubBlock2] := by
  constructor
  · obtain ⟨fsub, obs, bsr, ctr2, h1, h2, h3, h4, h5, h6, h7, h8, h9⟩ :=
      root_unique_c1.1 15 c1Env "pkg.Cfg" (.mk 0 "" "" .nil) [] 0
        "A" "a" "" "" "pkg.Root" c1RootFields
        (.cons (.mk "B" "b" "" "" c1RootType) .nil) 1
        c1TopBlock [c1SubBlock1, c1SubBlock2] 3
        (by decide) (by decide) (by decide) (by decide) rfl rfl rfl
    exact ⟨fsub, obs, bsr, ctr2, h1, h2, h6⟩
  · exact root_unique_c1.2 c1Env "pkg.Cfg" c1CfgFields
      [c1TopBlock, c1SubBlock1, c1SubBlock2] rfl

end MimirParse
